import Mathlib

/-!
Verification of the command-interpretation core of a small interactive
shell (src/main.c) against its natural-language specification.

Modelling conventions (shallow embedding):

The C code stores an argument vector as a heap array of C strings whose
live region is args[0 .. num_args), always followed by a NULL sentinel at
args[num_args].  We model the live region as a `List String`; the list's
end is the sentinel, so "re-terminating the vector with a null sentinel at
the new count" corresponds to the compacted list having exactly the new
count of elements, and `num_args` is the list's length.

Side effects (fprintf to stderr, freopen, fork, execvp, waitpid, pipe,
close, dup2, chdir) are modelled as explicit event traces in the order the
source performs them, on the success path of fork and pipe (the source
exits the process on fork or pipe failure).  Whether freopen of a
redirection target succeeds is a parameter (a predicate on file names),
since it depends on the file system.
-/

namespace Shell

/-! ## Tokenizer (parse_cmd, src/main.c lines 181-208)

The C code tokenizes with strtok(input, " \n"): tokens are the maximal
nonempty runs of characters other than space and newline. -/

/-- Delimiter set of strtok(input, " \n") in parse_cmd. -/
def is_delim (c : Char) : Bool := c = ' ' || c = '\n'

/-- Shallow embedding of the strtok loop of parse_cmd: walk the
characters, accumulating the current token (in reverse); a delimiter
flushes a nonempty accumulator as a finished token. -/
def tokenize_chars : List Char → List Char → List String
  | [], acc => if acc = [] then [] else [String.mk acc.reverse]
  | c :: cs, acc =>
    if is_delim c then
      if acc = [] then tokenize_chars cs []
      else String.mk acc.reverse :: tokenize_chars cs []
    else tokenize_chars cs (c :: acc)

/-- The argument vector parse_cmd builds from a raw input line. -/
def parse_tokens (input : String) : List String := tokenize_chars input.data []

/-! ## Capacity bookkeeping of parse_cmd (src/main.c lines 184-207)

parse_cmd starts with capacity 10; before storing each token it doubles
the capacity when num_args >= capacity; after the loop it writes the NULL
sentinel at index num_args.  `parse_sizes n` is the (num_args, capacity)
pair after the loop has stored n tokens; the sentinel store is in bounds
iff num_args < capacity. -/

/-- Pair (num_args, capacity) of parse_cmd after storing n tokens. -/
def parse_sizes : Nat → Nat × Nat
  | 0 => (0, 10)
  | n + 1 =>
    let p := parse_sizes n
    let cap := if p.1 ≥ p.2 then p.2 * 2 else p.2
    (p.1 + 1, cap)

/-! ## Redirection resolver (src/main.c lines 22-92) -/

/-- First character test used by is_valid_redirection: the C code checks
args[i+1][0] against the characters < and > (only the first character of
the candidate operand, not the whole token).  An empty token's first byte
is the NUL terminator in C, which is neither, so an empty token counts as
not bad. -/
def bad_first_char (s : String) : Bool :=
  match s.data with
  | [] => false
  | c :: _ => c = '<' || c = '>'

/-- Embedding of is_valid_redirection (src/main.c lines 22-26):
true iff index i+1 is within the live region and the token there does not
begin with < or >.  The && short-circuits as in C, so the token is only
inspected when the bound holds; num_args is the live length of args in
this model. -/
def is_valid_redirection (i : Nat) (num_args : Nat) (args : List String) : Bool :=
  decide (i + 1 < num_args) && !(bad_first_char (args.getD (i + 1) ""))

/-- Result of one redirect_input / redirect_output call: the target file
was captured and the vector compacted; or the validity check failed and a
diagnostic was printed naming the offending token (none when the symbol is
the last live token, in which case the C code passes the NULL sentinel
slot to fprintf); or the symbol does not occur. -/
inductive ScanResult where
  | found (file : String) (rest : List String)
  | invalid (tok : Option String)
  | notFound
deriving DecidableEq, Repr

/-- Shared embedding of the loop bodies of redirect_input and
redirect_output (src/main.c lines 37-59 and 70-92), which are identical up
to the symbol scanned for: find the first token equal to sym; check the
following token exists and does not begin with < or > (is_valid_redirection);
on success capture it and remove both tokens (the C code shifts all later
elements left by two, decrements num_args by two and re-terminates, which
on the live-region list is dropping the two elements). -/
def scan_redirect (sym : String) : List String → ScanResult
  | [] => ScanResult.notFound
  | a :: rest =>
    if a = sym then
      match rest with
      | [] => ScanResult.invalid none
      | b :: rest2 =>
        if bad_first_char b then ScanResult.invalid (some b)
        else ScanResult.found b rest2
    else
      match scan_redirect sym rest with
      | ScanResult.found f v => ScanResult.found f (a :: v)
      | r => r

/-- Embedding of redirect_input (src/main.c lines 37-59). -/
def redirect_input (args : List String) : ScanResult := scan_redirect "<" args

/-- Embedding of redirect_output (src/main.c lines 70-92). -/
def redirect_output (args : List String) : ScanResult := scan_redirect ">" args

/-- Embedding of find_pipe_idx (src/main.c lines 241-251): index of the
first token equal to the pipe symbol, none when absent (the C code
returns -1). -/
def find_pipe_idx : List String → Option Nat
  | [] => none
  | a :: rest =>
    if a = "|" then some 0
    else (find_pipe_idx rest).map (· + 1)

/-! ## Process orchestrator (execute_cmd, src/main.c lines 101-173)

execute_cmd is modelled as a function producing the trace of its
observable actions, in source order, together with the argument vector
that reaches the dispatch point (the strcmp(args[0], "cd") test at line
137), if that point is reached.  The fork-failure branch (lines 168-172)
is not modelled: the run is on the success path of fork. -/

/-- Observable actions of one execute_cmd run, in source order:
delegation to execute_pipe with the found pipe index (line 109); the
syntax diagnostic of a failed redirect scan (lines 45, 78); a freopen of a
redirection target recording whether it succeeded (lines 117, 127); the
missing-operand diagnostic of cd (line 141); the chdir of cd (line 143);
the undefined-behaviour read of the NULL sentinel as args[0] at line 137
when the compacted vector is empty; fork+execvp of the argument vector
(lines 151-154); waitpid (line 161); and the two unconditional freopen
attempts restoring stdin and stdout to /dev/tty (lines 163-166). -/
inductive Event where
  | callPipe (k : Nat)
  | reportInvalid (tok : Option String)
  | openInput (file : String) (ok : Bool)
  | openOutput (file : String) (ok : Bool)
  | cdMissing
  | cdRun (dir : String)
  | ubNullCommand
  | spawn (argv : List String)
  | waitChild
  | restoreStdin
  | restoreStdout
deriving DecidableEq, Repr

/-- One execute_cmd run: the event trace, and the argument vector present
at the dispatch point (line 137), none when an earlier return (empty
vector at entry, pipe delegation, or a failed freopen of a redirection
target) skipped dispatch. -/
structure CmdRun where
  trace : List Event
  dispatched : Option (List String)
deriving DecidableEq, Repr

/-- The dispatch tail of execute_cmd (src/main.c lines 137-167), operating
on the vector as compacted by the redirection phase: line 137 reads
args[0], which is the NULL sentinel when the vector has become empty
(undefined behaviour, recorded as ubNullCommand); cd is handled in
process (lines 137-148); every other command is forked, execvp-ed,
waited on, and followed by the two unconditional restore attempts
(lines 150-167). -/
def dispatch_cmd (args : List String) : List Event × Option (List String) :=
  match args with
  | [] => ([Event.ubNullCommand], some [])
  | a0 :: _ =>
    if a0 = "cd" then
      if args.length < 2 then ([Event.cdMissing], some args)
      else ([Event.cdRun (args.getD 1 "")], some args)
    else
      ([Event.spawn args, Event.waitChild, Event.restoreStdin, Event.restoreStdout],
       some args)

/-- The output-redirection phase of execute_cmd (src/main.c lines
125-134) and everything after it, on the vector args1 as left by the
input phase: a found output target is freopen-ed (failure frees the path
and returns, line 131); a failed scan printed its diagnostic inside
redirect_output and execute_cmd simply continues; then the dispatch tail
runs.  wo tells whether freopen("w") of a given path succeeds. -/
def output_phase (wo : String → Bool) (args1 : List String) :
    List Event × Option (List String) :=
  match redirect_output args1 with
  | ScanResult.found g w =>
    if wo g then
      (Event.openOutput g true :: (dispatch_cmd w).1, (dispatch_cmd w).2)
    else ([Event.openOutput g false], none)
  | ScanResult.invalid t =>
    (Event.reportInvalid t :: (dispatch_cmd args1).1, (dispatch_cmd args1).2)
  | ScanResult.notFound => dispatch_cmd args1

/-- Embedding of execute_cmd (src/main.c lines 101-173): return at once
on an empty vector (line 103); delegate to execute_pipe when a pipe
symbol is present (lines 106-111); otherwise run the input-redirection
phase (lines 115-124: a found input target is freopen-ed, failure
returns; a failed scan printed its diagnostic and the code continues with
the vector unchanged), then the output phase and dispatch.  ro and wo
tell whether freopen("r") / freopen("w") of a given path succeeds. -/
def execute_cmd (ro wo : String → Bool) (args : List String) : CmdRun :=
  if args.isEmpty then { trace := [], dispatched := none }
  else
    match find_pipe_idx args with
    | some k => { trace := [Event.callPipe k], dispatched := none }
    | none =>
      match redirect_input args with
      | ScanResult.found f v =>
        if ro f then
          let o := output_phase wo v
          { trace := Event.openInput f true :: o.1, dispatched := o.2 }
        else { trace := [Event.openInput f false], dispatched := none }
      | ScanResult.invalid t =>
        let o := output_phase wo args
        { trace := Event.reportInvalid t :: o.1, dispatched := o.2 }
      | ScanResult.notFound =>
        let o := output_phase wo args
        { trace := o.1, dispatched := o.2 }

/-! ## Standard-stream state (for the lifecycle claim)

The parent's stdin/stdout bindings after a trace, starting at the
controlling terminal: a successful freopen of a redirection target binds
the stream to that file; a restore attempt rebinds it to the terminal
(taking the restore freopen of /dev/tty to succeed). -/

/-- Binding of one standard stream of the shell process. -/
inductive StdStream where
  | terminal
  | file (path : String)
deriving DecidableEq, Repr

/-- Stdin binding after running a trace from the terminal. -/
def stdin_after (tr : List Event) : StdStream :=
  tr.foldl
    (fun s e =>
      match e with
      | Event.openInput f true => StdStream.file f
      | Event.restoreStdin => StdStream.terminal
      | _ => s)
    StdStream.terminal

/-- Stdout binding after running a trace from the terminal. -/
def stdout_after (tr : List Event) : StdStream :=
  tr.foldl
    (fun s e =>
      match e with
      | Event.openOutput f true => StdStream.file f
      | Event.restoreStdout => StdStream.terminal
      | _ => s)
    StdStream.terminal

/-! ## Piped path (execute_pipe, src/main.c lines 262-310) -/

/-- Parent-side actions of execute_pipe in source order: pipe(fd) at line
279, the two forks at lines 284 and 294, the parent's close of both pipe
ends at lines 306-307, and the two waitpid calls at lines 308-309. -/
inductive PEvent where
  | createPipe
  | spawnLeft
  | spawnRight
  | closeReadEnd
  | closeWriteEnd
  | waitLeft
  | waitRight
deriving DecidableEq, Repr

/-- Child-side actions of execute_pipe in source order; execCall records
the execvp call with the command name lhs[0] / rhs[0] (none when that
slot holds the NULL sentinel) and the argument vector. -/
inductive CEvent where
  | closeReadEnd
  | closeWriteEnd
  | dupWriteToStdout
  | dupReadToStdin
  | execCall (name : Option String) (argv : List String)
deriving DecidableEq, Repr

/-- One execute_pipe run: the two sub-vectors and the three traces. -/
structure PipeRun where
  lhs : List String
  rhs : List String
  parent : List PEvent
  left : List CEvent
  right : List CEvent
deriving DecidableEq, Repr

/-- Embedding of execute_pipe (src/main.c lines 262-310): lhs copies
args[0 .. pipe_idx) and is NULL-terminated (lines 265-271), rhs copies
args[pipe_idx+1 .. num_args) and is NULL-terminated (lines 266-276); the
pipe is created, both children are forked in order, the left child closes
the read end, dups the write end onto stdout, closes it and execvp-s lhs
(lines 285-293), the right child closes the write end, dups the read end
onto stdin, closes it and execvp-s rhs (lines 295-303); the parent then
closes both ends and waits for the left child, then the right (lines
305-309).  The pipe-failure exit (lines 280-283) is not modelled: the run
is on the success path of pipe and fork. -/
def execute_pipe (args : List String) (pipe_idx : Nat) : PipeRun :=
  let lhs := args.take pipe_idx
  let rhs := args.drop (pipe_idx + 1)
  { lhs := lhs
    rhs := rhs
    parent := [PEvent.createPipe, PEvent.spawnLeft, PEvent.spawnRight,
               PEvent.closeReadEnd, PEvent.closeWriteEnd,
               PEvent.waitLeft, PEvent.waitRight]
    left := [CEvent.closeReadEnd, CEvent.dupWriteToStdout, CEvent.closeWriteEnd,
             CEvent.execCall lhs.head? lhs]
    right := [CEvent.closeWriteEnd, CEvent.dupReadToStdin, CEvent.closeReadEnd,
              CEvent.execCall rhs.head? rhs] }

/-! ## Helper lemmas about the resolver -/

/-- The scan ignores a prefix free of the symbol and fails with the
missing-operand diagnostic when the symbol is the last live token. -/
theorem scan_first_none (sym : String) (pre : List String) (h : sym ∉ pre) :
    scan_redirect sym (pre ++ [sym]) = ScanResult.invalid none := by
  induction pre with
  | nil => simp [scan_redirect]
  | cons a pre ih =>
    have ha : a ≠ sym := fun hc => h (hc ▸ List.mem_cons_self a pre)
    have htail : sym ∉ pre := fun hc => h (List.mem_cons_of_mem a hc)
    simp [scan_redirect, ha, ih htail]

/-- The scan rejects the first symbol occurrence whose operand begins
with a redirection character. -/
theorem scan_first_bad (sym : String) (pre : List String) (b : String)
    (rest : List String) (h : sym ∉ pre) (hb : bad_first_char b = true) :
    scan_redirect sym (pre ++ sym :: b :: rest) = ScanResult.invalid (some b) := by
  induction pre with
  | nil => simp [scan_redirect, hb]
  | cons a pre ih =>
    have ha : a ≠ sym := fun hc => h (hc ▸ List.mem_cons_self a pre)
    have htail : sym ∉ pre := fun hc => h (List.mem_cons_of_mem a hc)
    simp [scan_redirect, ha, ih htail]

/-- The scan captures the operand of the first symbol occurrence and
removes exactly the symbol and the operand, keeping the prefix and the
tail: the compacted vector is pre ++ rest, two elements shorter. -/
theorem scan_first_good (sym : String) (pre : List String) (b : String)
    (rest : List String) (h : sym ∉ pre) (hb : bad_first_char b = false) :
    scan_redirect sym (pre ++ sym :: b :: rest) = ScanResult.found b (pre ++ rest) := by
  induction pre with
  | nil => simp [scan_redirect, hb]
  | cons a pre ih =>
    have ha : a ≠ sym := fun hc => h (hc ▸ List.mem_cons_self a pre)
    have htail : sym ∉ pre := fun hc => h (List.mem_cons_of_mem a hc)
    simp [scan_redirect, ha, ih htail]

/-- A vector without the symbol is left alone. -/
theorem scan_not_mem (sym : String) (args : List String) (h : sym ∉ args) :
    scan_redirect sym args = ScanResult.notFound := by
  induction args with
  | nil => rfl
  | cons a rest ih =>
    have ha : a ≠ sym := fun hc => h (hc ▸ List.mem_cons_self a rest)
    have htail : sym ∉ rest := fun hc => h (List.mem_cons_of_mem a hc)
    simp [scan_redirect, ha, ih htail]

/-- find_pipe_idx misses a vector without the pipe symbol. -/
theorem find_pipe_idx_eq_none (args : List String) (h : "|" ∉ args) :
    find_pipe_idx args = none := by
  induction args with
  | nil => rfl
  | cons a rest ih =>
    have ha : a ≠ "|" := fun hc => h (hc ▸ List.mem_cons_self a rest)
    have htail : "|" ∉ rest := fun hc => h (List.mem_cons_of_mem a hc)
    simp [find_pipe_idx, ha, ih htail]

/-- find_pipe_idx hits any vector containing the pipe symbol. -/
theorem find_pipe_idx_of_mem (args : List String) (h : "|" ∈ args) :
    ∃ k, find_pipe_idx args = some k := by
  induction args with
  | nil => cases h
  | cons a rest ih =>
    by_cases ha : a = "|"
    · exact ⟨0, by simp [find_pipe_idx, ha]⟩
    · have htail : "|" ∈ rest := by
        cases h with
        | head => exact absurd rfl ha
        | tail _ hm => exact hm
      obtain ⟨k, hk⟩ := ih htail
      exact ⟨k + 1, by simp [find_pipe_idx, ha, hk]⟩

/-- The index found by find_pipe_idx is in range, is the first index
holding the pipe symbol, and splits the vector as its prefix, the pipe
token, and its suffix. -/
theorem find_pipe_idx_spec (args : List String) (k : Nat)
    (h : find_pipe_idx args = some k) :
    k < args.length ∧ "|" ∉ args.take k ∧
      args.take k ++ "|" :: args.drop (k + 1) = args := by
  induction args generalizing k with
  | nil => cases h
  | cons a rest ih =>
    by_cases ha : a = "|"
    · have hk : k = 0 := by
        simp [find_pipe_idx, ha] at h
        omega
      subst hk
      simp [ha]
    · simp only [find_pipe_idx, if_neg ha, Option.map_eq_some'] at h
      obtain ⟨j, hj, hjk⟩ := h
      obtain ⟨hlt, hmem, hsplit⟩ := ih j hj
      subst hjk
      refine ⟨by simpa using Nat.succ_lt_succ hlt, ?_, ?_⟩
      · intro hc
        rcases List.mem_cons.mp (by simpa using hc) with hc1 | hc2
        · exact ha hc1.symm
        · exact hmem hc2
      · simpa using hsplit

/-! ## Helper lemmas about the orchestrator -/

/-- Equation form of output_phase when the output scan found a target. -/
theorem output_phase_eq_found (wo : String → Bool) (args1 w : List String)
    (g : String) (hscan : redirect_output args1 = ScanResult.found g w) :
    output_phase wo args1 =
      if wo g then
        (Event.openOutput g true :: (dispatch_cmd w).1, (dispatch_cmd w).2)
      else ([Event.openOutput g false], none) := by
  unfold output_phase
  rw [hscan]

/-- Equation form of output_phase when the output scan failed. -/
theorem output_phase_eq_invalid (wo : String → Bool) (args1 : List String)
    (t : Option String) (hscan : redirect_output args1 = ScanResult.invalid t) :
    output_phase wo args1 =
      (Event.reportInvalid t :: (dispatch_cmd args1).1, (dispatch_cmd args1).2) := by
  unfold output_phase
  rw [hscan]

/-- Equation form of output_phase when no output symbol occurs. -/
theorem output_phase_eq_notFound (wo : String → Bool) (args1 : List String)
    (hscan : redirect_output args1 = ScanResult.notFound) :
    output_phase wo args1 = dispatch_cmd args1 := by
  unfold output_phase
  rw [hscan]

/-- The dispatch tail always records the vector it dispatched. -/
theorem dispatch_cmd_snd (args : List String) :
    (dispatch_cmd args).2 = some args := by
  match args with
  | [] => rfl
  | a0 :: rest =>
    simp only [dispatch_cmd]
    by_cases hcd : a0 = "cd"
    · rw [if_pos hcd]
      split <;> rfl
    · rw [if_neg hcd]

/-- A spawn event in the dispatch tail pins the whole tail: the child is
spawned, reaped, and both restore attempts follow. -/
theorem dispatch_cmd_spawn (args v : List String)
    (h : Event.spawn v ∈ (dispatch_cmd args).1) :
    (dispatch_cmd args).1 =
      [Event.spawn v, Event.waitChild, Event.restoreStdin, Event.restoreStdout] := by
  match args with
  | [] => simp [dispatch_cmd] at h
  | a0 :: rest =>
    simp only [dispatch_cmd] at h ⊢
    by_cases hcd : a0 = "cd"
    · rw [if_pos hcd] at h
      split at h <;> simp at h
    · rw [if_neg hcd] at h ⊢
      have hv : v = a0 :: rest := by simpa using h
      rw [hv]

/-- A spawn event in the output phase occurs as part of the dispatch-tail
suffix of its trace. -/
theorem output_phase_spawn (wo : String → Bool) (args1 v : List String)
    (h : Event.spawn v ∈ (output_phase wo args1).1) :
    ∃ p, (output_phase wo args1).1 =
      p ++ [Event.spawn v, Event.waitChild, Event.restoreStdin, Event.restoreStdout] := by
  cases hscan : redirect_output args1 with
  | found g w =>
    rw [output_phase_eq_found wo args1 w g hscan] at h ⊢
    by_cases hwo : wo g
    · rw [if_pos hwo] at h ⊢
      have hmem : Event.spawn v ∈ (dispatch_cmd w).1 := by
        rcases List.mem_cons.mp h with h1 | h1
        · cases h1
        · exact h1
      exact ⟨[Event.openOutput g true], by simp [dispatch_cmd_spawn w v hmem]⟩
    · rw [if_neg hwo] at h
      simp at h
  | invalid t =>
    rw [output_phase_eq_invalid wo args1 t hscan] at h ⊢
    have hmem : Event.spawn v ∈ (dispatch_cmd args1).1 := by
      rcases List.mem_cons.mp h with h1 | h1
      · cases h1
      · exact h1
    exact ⟨[Event.reportInvalid t], by simp [dispatch_cmd_spawn args1 v hmem]⟩
  | notFound =>
    rw [output_phase_eq_notFound wo args1 hscan] at h ⊢
    exact ⟨[], by simp [dispatch_cmd_spawn args1 v h]⟩

/-- Nonempty vectors are not isEmpty. -/
theorem isEmpty_false_of_ne_nil (args : List String) (h : args ≠ []) :
    args.isEmpty = false := by
  cases args with
  | nil => exact absurd rfl h
  | cons a rest => rfl

/-- Equation form of execute_cmd on the pipe-free path when the input
scan found a target that opens. -/
theorem execute_cmd_eq_found (ro wo : String → Bool) (args v : List String)
    (f : String) (hne : args ≠ []) (hp : find_pipe_idx args = none)
    (hscan : redirect_input args = ScanResult.found f v) (hro : ro f = true) :
    execute_cmd ro wo args =
      { trace := Event.openInput f true :: (output_phase wo v).1
        dispatched := (output_phase wo v).2 } := by
  unfold execute_cmd
  rw [isEmpty_false_of_ne_nil args hne, hp, hscan]
  simp [hro]

/-- Equation form of execute_cmd on the pipe-free path when the input
scan failed: the diagnostic is recorded and the run continues on the
unmodified vector. -/
theorem execute_cmd_eq_invalid (ro wo : String → Bool) (args : List String)
    (t : Option String) (hne : args ≠ []) (hp : find_pipe_idx args = none)
    (hscan : redirect_input args = ScanResult.invalid t) :
    execute_cmd ro wo args =
      { trace := Event.reportInvalid t :: (output_phase wo args).1
        dispatched := (output_phase wo args).2 } := by
  unfold execute_cmd
  rw [isEmpty_false_of_ne_nil args hne, hp, hscan]
  rfl

/-- Equation form of execute_cmd on the pipe-free path with no input
symbol. -/
theorem execute_cmd_eq_notFound (ro wo : String → Bool) (args : List String)
    (hne : args ≠ []) (hp : find_pipe_idx args = none)
    (hscan : redirect_input args = ScanResult.notFound) :
    execute_cmd ro wo args =
      { trace := (output_phase wo args).1
        dispatched := (output_phase wo args).2 } := by
  unfold execute_cmd
  rw [isEmpty_false_of_ne_nil args hne, hp, hscan]
  rfl

/-- Equation form of execute_cmd on the pipe-free path when the input
scan found a target that fails to open: the run aborts. -/
theorem execute_cmd_eq_found_bad (ro wo : String → Bool) (args v : List String)
    (f : String) (hne : args ≠ []) (hp : find_pipe_idx args = none)
    (hscan : redirect_input args = ScanResult.found f v) (hro : ro f = false) :
    execute_cmd ro wo args =
      { trace := [Event.openInput f false], dispatched := none } := by
  unfold execute_cmd
  rw [isEmpty_false_of_ne_nil args hne, hp, hscan]
  simp [hro]

/-- Element just past a position-fixing prefix and one more slot. -/
theorem getD_append_cons_cons (pre : List String) (x b : String)
    (rest : List String) : (pre ++ x :: b :: rest).getD (pre.length + 1) "" = b := by
  induction pre with
  | nil => rfl
  | cons a pre ih =>
    simpa [List.getD_cons_succ] using ih

/-- Equation form of execute_cmd when a pipe symbol is present. -/
theorem execute_cmd_eq_pipe (ro wo : String → Bool) (args : List String)
    (k : Nat) (hne : args ≠ []) (hp : find_pipe_idx args = some k) :
    execute_cmd ro wo args = { trace := [Event.callPipe k], dispatched := none } := by
  unfold execute_cmd
  rw [isEmpty_false_of_ne_nil args hne, hp]
  rfl

/-! ## Helper lemmas about the tokenizer -/

/-- A run of delimiters tokenizes to nothing. -/
theorem tokenize_all_delim (l : List Char) (h : ∀ c ∈ l, is_delim c = true) :
    tokenize_chars l [] = [] := by
  induction l with
  | nil => rfl
  | cons c cs ih =>
    have hc : is_delim c = true := h c (List.mem_cons_self c cs)
    have htail : ∀ x ∈ cs, is_delim x = true := fun x hx => h x (List.mem_cons_of_mem c hx)
    simp [tokenize_chars, hc, ih htail]

/-- Every character of every produced token comes from the remaining
input or the current accumulator. -/
theorem tokenize_chars_subset :
    ∀ (l acc : List Char) (t : String), t ∈ tokenize_chars l acc →
      ∀ c ∈ t.data, c ∈ l ∨ c ∈ acc := by
  intro l
  induction l with
  | nil =>
    intro acc t ht c hc
    by_cases hacc : acc = []
    · simp [tokenize_chars, hacc] at ht
    · simp only [tokenize_chars, if_neg hacc, List.mem_singleton] at ht
      subst ht
      exact Or.inr (List.mem_reverse.mp hc)
  | cons x xs ih =>
    intro acc t ht c hc
    by_cases hx : is_delim x
    · by_cases hacc : acc = []
      · simp only [tokenize_chars, if_pos hx, if_pos hacc] at ht
        rcases ih [] t ht c hc with h1 | h1
        · exact Or.inl (List.mem_cons_of_mem x h1)
        · cases h1
      · simp only [tokenize_chars, if_pos hx, if_neg hacc, List.mem_cons] at ht
        rcases ht with ht | ht
        · subst ht
          exact Or.inr (List.mem_reverse.mp hc)
        · rcases ih [] t ht c hc with h1 | h1
          · exact Or.inl (List.mem_cons_of_mem x h1)
          · cases h1
    · simp only [tokenize_chars, if_neg hx] at ht
      rcases ih (x :: acc) t ht c hc with h1 | h1
      · exact Or.inl (List.mem_cons_of_mem x h1)
      · rcases List.mem_cons.mp h1 with h2 | h2
        · exact Or.inl (h2 ▸ List.mem_cons_self x xs)
        · exact Or.inr h2

/-- A single-metacharacter token can only be produced from a line that
contains that character. -/
theorem token_mem_char (s : String) (t : String) (c : Char)
    (ht : t ∈ parse_tokens s) (hc : c ∈ t.data) : c ∈ s.data := by
  rcases tokenize_chars_subset s.data [] t ht c hc with h | h
  · exact h
  · cases h

/-! ## Claim theorems -/

/-- C1: the claim says a malformed redirection (missing operand, or an
operand that is itself a redirection symbol) aborts resolution and
executes nothing.  Evaluating the code on the line "ls < <" shows the
opposite: redirect_input prints the syntax diagnostic and returns false,
but execute_cmd continues, and a child is forked and execvp-ed with the
two literal "<" tokens still in the argument vector.  (With a bare
trailing symbol the diagnostic itself reads the NULL sentinel slot,
recorded here as reportInvalid none.) -/
theorem c1_syntax_error_line_still_spawns :
    execute_cmd (fun _ => true) (fun _ => true) ["ls", "<", "<"] =
      { trace := [Event.reportInvalid (some "<"),
                  Event.spawn ["ls", "<", "<"], Event.waitChild,
                  Event.restoreStdin, Event.restoreStdout]
        dispatched := some ["ls", "<", "<"] } := by
  rfl

/-- C2: the claim says a vector that becomes empty after redirection
extraction makes execution a no-op.  In the code the emptiness guard
(line 103) runs before extraction, not after: on the line "< in.txt"
(readable target) both tokens are extracted, the vector becomes empty,
and line 137 reads the NULL sentinel as args[0] and passes it to strcmp,
which is undefined behaviour, not a clean no-op. -/
theorem c2_empty_after_extraction_hits_null_command :
    execute_cmd (fun _ => true) (fun _ => true) ["<", "in.txt"] =
      { trace := [Event.openInput "in.txt" true, Event.ubNullCommand]
        dispatched := some [] } := by
  rfl

/-- C3 counterexample: the claim says every line's redirected streams are
restored to the terminal before the next line is read.  On the line
"cd /tmp > out" (writable target) stdout is freopen-ed onto the file,
the cd built-in runs, and execute_cmd returns with no restore attempt in
the trace, so stdout is still bound to the file when the next line is
read. -/
theorem c3_cd_redirect_stream_survives :
    stdout_after (execute_cmd (fun _ => true) (fun _ => true)
        ["cd", "/tmp", ">", "out"]).trace = StdStream.file "out" ∧
      Event.restoreStdout ∉ (execute_cmd (fun _ => true) (fun _ => true)
        ["cd", "/tmp", ">", "out"]).trace := by
  decide

/-- C5 counterexample: the claim says any following token other than the
standalone symbols "<" and ">" is accepted as a redirection target, in
particular a token that merely begins with a redirection character, such
as "<file".  The code checks only the first character of the operand, so
on ["cat", "<", "<file"] the operand "<file" — which is not the
standalone token "<" or ">" — is rejected with a syntax diagnostic
instead of being captured. -/
theorem c5_prefixed_token_rejected :
    redirect_input ["cat", "<", "<file"] = ScanResult.invalid (some "<file") ∧
      "<file" ≠ "<" ∧ "<file" ≠ ">" ∧
      redirect_input ["cat", "<", "<file"] ≠ ScanResult.found "<file" ["cat"] := by
  decide

/-- C9: the claim says the NULL sentinel slot written after tokenization
always lies within the allocated capacity, in particular when the token
count exactly equals the capacity.  Evaluating parse_cmd's capacity
bookkeeping on a ten-token line (the line "a b c d e f g h i j") shows
num_args = capacity = 10 after the loop, so the sentinel store
args[num_args] writes index 10 of a 10-slot allocation: one slot past the
end, not within capacity. -/
theorem c9_sentinel_overflow_at_capacity :
    (parse_tokens "a b c d e f g h i j").length = 10 ∧
      parse_sizes 10 = (10, 10) ∧
      ¬ (parse_sizes 10).1 < (parse_sizes 10).2 := by
  decide

/-- C3 (amended): argument strings and children are line-scoped and the
single-command spawn path unconditionally attempts to restore standard
input and output after the child is reaped (restoration errors reported,
not fatal) — whenever a child is spawned in execute_cmd, the trace ends
with the reap followed by both restore attempts, regardless of whether
any redirection occurred; but contrary to the original claim, a line that
redirects a stream and then runs the cd built-in, or that fails to open a
redirection target after an earlier target was opened, returns without
any restore attempt, so the redirected stream survives into the next
line. -/
theorem c3_spawn_path_restores_after_reap (ro wo : String → Bool)
    (args v : List String) (h : Event.spawn v ∈ (execute_cmd ro wo args).trace) :
    ∃ p, (execute_cmd ro wo args).trace =
      p ++ [Event.spawn v, Event.waitChild, Event.restoreStdin, Event.restoreStdout] := by
  by_cases hne : args = []
  · subst hne
    simp [execute_cmd] at h
  · cases hp : find_pipe_idx args with
    | some k =>
      rw [execute_cmd_eq_pipe ro wo args k hne hp] at h
      simp at h
    | none =>
      cases hscan : redirect_input args with
      | found f w =>
        by_cases hro : ro f
        · rw [execute_cmd_eq_found ro wo args w f hne hp hscan hro] at h ⊢
          have hmem : Event.spawn v ∈ (output_phase wo w).1 := by
            rcases List.mem_cons.mp h with h1 | h1
            · cases h1
            · exact h1
          obtain ⟨p, hp2⟩ := output_phase_spawn wo w v hmem
          exact ⟨Event.openInput f true :: p, by simp [hp2]⟩
        · rw [execute_cmd_eq_found_bad ro wo args w f hne hp hscan
            (Bool.not_eq_true (ro f) ▸ hro)] at h
          simp at h
      | invalid t =>
        rw [execute_cmd_eq_invalid ro wo args t hne hp hscan] at h ⊢
        have hmem : Event.spawn v ∈ (output_phase wo args).1 := by
          rcases List.mem_cons.mp h with h1 | h1
          · cases h1
          · exact h1
        obtain ⟨p, hp2⟩ := output_phase_spawn wo args v hmem
        exact ⟨Event.reportInvalid t :: p, by simp [hp2]⟩
      | notFound =>
        rw [execute_cmd_eq_notFound ro wo args hne hp hscan] at h ⊢
        obtain ⟨p, hp2⟩ := output_phase_spawn wo args v h
        exact ⟨p, by simp [hp2]⟩

/-- Witness for c3_spawn_path_restores_after_reap on the line "ls". -/
theorem c3_spawn_path_restores_after_reap_witness :
    ∃ p, (execute_cmd (fun _ => true) (fun _ => true) ["ls"]).trace =
      p ++ [Event.spawn ["ls"], Event.waitChild,
            Event.restoreStdin, Event.restoreStdout] :=
  c3_spawn_path_restores_after_reap (fun _ => true) (fun _ => true)
    ["ls"] ["ls"] (by decide)

/-- C4: when a pipe symbol occurs anywhere in the vector, execute_cmd
delegates the whole line to the piped path without resolving any
redirection (its trace is exactly the delegation, with no scan diagnostic
and no freopen), and the line splits at the first pipe token into a left
and right sub-vector passed through literally — their concatenation
around the pipe token reconstructs the original vector, so every "<" or
">" token survives verbatim into the sub-vector handed to the child's
execvp call. -/
theorem c4_pipe_precedence (ro wo : String → Bool) (args : List String)
    (h : "|" ∈ args) :
    ∃ k, find_pipe_idx args = some k ∧
      execute_cmd ro wo args = { trace := [Event.callPipe k], dispatched := none } ∧
      (execute_pipe args k).lhs ++ "|" :: (execute_pipe args k).rhs = args ∧
      "|" ∉ (execute_pipe args k).lhs ∧
      CEvent.execCall (execute_pipe args k).lhs.head? (execute_pipe args k).lhs ∈
        (execute_pipe args k).left ∧
      CEvent.execCall (execute_pipe args k).rhs.head? (execute_pipe args k).rhs ∈
        (execute_pipe args k).right := by
  obtain ⟨k, hk⟩ := find_pipe_idx_of_mem args h
  obtain ⟨hlt, hnmem, hsplit⟩ := find_pipe_idx_spec args k hk
  have hne : args ≠ [] := by
    intro hc
    subst hc
    cases h
  refine ⟨k, hk, execute_cmd_eq_pipe ro wo args k hne hk, hsplit, hnmem, ?_, ?_⟩
  · simp [execute_pipe]
  · simp [execute_pipe]

/-- Witness for c4_pipe_precedence on the line "echo a > f | cat". -/
theorem c4_pipe_precedence_witness :
    ∃ k, find_pipe_idx ["echo", "a", ">", "f", "|", "cat"] = some k ∧
      execute_cmd (fun _ => true) (fun _ => true) ["echo", "a", ">", "f", "|", "cat"] =
        { trace := [Event.callPipe k], dispatched := none } ∧
      (execute_pipe ["echo", "a", ">", "f", "|", "cat"] k).lhs ++ "|" ::
          (execute_pipe ["echo", "a", ">", "f", "|", "cat"] k).rhs =
        ["echo", "a", ">", "f", "|", "cat"] ∧
      "|" ∉ (execute_pipe ["echo", "a", ">", "f", "|", "cat"] k).lhs ∧
      CEvent.execCall (execute_pipe ["echo", "a", ">", "f", "|", "cat"] k).lhs.head?
          (execute_pipe ["echo", "a", ">", "f", "|", "cat"] k).lhs ∈
        (execute_pipe ["echo", "a", ">", "f", "|", "cat"] k).left ∧
      CEvent.execCall (execute_pipe ["echo", "a", ">", "f", "|", "cat"] k).rhs.head?
          (execute_pipe ["echo", "a", ">", "f", "|", "cat"] k).rhs ∈
        (execute_pipe ["echo", "a", ">", "f", "|", "cat"] k).right :=
  c4_pipe_precedence (fun _ => true) (fun _ => true)
    ["echo", "a", ">", "f", "|", "cat"] (by decide)

/-- C5 (amended): for the first occurrence of the input-redirection
symbol, extraction succeeds and captures the following token as the
target if and only if a following token exists and its first character is
neither the character < nor the character >; a token that merely begins
with one of those characters (such as "<file") is rejected with a syntax
diagnostic even though it is not a standalone metacharacter token.  The
validity test is exactly is_valid_redirection at the symbol's index. -/
theorem c5_first_char_validity (pre rest : List String) (b : String)
    (hpre : "<" ∉ pre) :
    redirect_input (pre ++ ["<"]) = ScanResult.invalid none ∧
      (bad_first_char b = true →
        redirect_input (pre ++ "<" :: b :: rest) = ScanResult.invalid (some b)) ∧
      (bad_first_char b = false →
        redirect_input (pre ++ "<" :: b :: rest) = ScanResult.found b (pre ++ rest)) ∧
      is_valid_redirection pre.length (pre ++ "<" :: b :: rest).length
          (pre ++ "<" :: b :: rest) = !(bad_first_char b) ∧
      is_valid_redirection pre.length (pre ++ ["<"]).length (pre ++ ["<"]) = false := by
  refine ⟨scan_first_none "<" pre hpre, fun hb => scan_first_bad "<" pre b rest hpre hb,
    fun hb => scan_first_good "<" pre b rest hpre hb, ?_, ?_⟩
  · have hlen : pre.length + 1 < (pre ++ "<" :: b :: rest).length := by
      simp
    unfold is_valid_redirection
    rw [getD_append_cons_cons pre "<" b rest]
    simp [hlen]
  · simp [is_valid_redirection]

/-- Witness for c5_first_char_validity on the line "cat < in.txt". -/
theorem c5_first_char_validity_witness :
    redirect_input (["cat"] ++ ["<"]) = ScanResult.invalid none ∧
      (bad_first_char "in.txt" = true →
        redirect_input (["cat"] ++ "<" :: "in.txt" :: []) =
          ScanResult.invalid (some "in.txt")) ∧
      (bad_first_char "in.txt" = false →
        redirect_input (["cat"] ++ "<" :: "in.txt" :: []) =
          ScanResult.found "in.txt" (["cat"] ++ [])) ∧
      is_valid_redirection ["cat"].length (["cat"] ++ "<" :: "in.txt" :: []).length
          (["cat"] ++ "<" :: "in.txt" :: []) = !(bad_first_char "in.txt") ∧
      is_valid_redirection ["cat"].length (["cat"] ++ ["<"]).length
          (["cat"] ++ ["<"]) = false :=
  c5_first_char_validity ["cat"] [] "in.txt" (by decide)

/-- C7: for a vector whose first pipe token is at index k, execute_pipe
splits it into the left command (indices before k) and the right command
(indices after k), each modelled as an independently sentinel-terminated
list; the parent trace creates one pipe, spawns both children before
waiting on either, closes both pipe ends immediately after the two
spawns, and reaps left then right; the left child closes the read end,
wires its stdout to the write end and closes it, then execvp-s the left
command; the right child closes the write end, wires its stdin to the
read end and closes it, then execvp-s the right command. -/
theorem c7_pipe_orchestration (args : List String) (k : Nat)
    (h : find_pipe_idx args = some k) :
    (execute_pipe args k).lhs = args.take k ∧
      (execute_pipe args k).rhs = args.drop (k + 1) ∧
      (execute_pipe args k).lhs ++ "|" :: (execute_pipe args k).rhs = args ∧
      (execute_pipe args k).parent =
        [PEvent.createPipe, PEvent.spawnLeft, PEvent.spawnRight,
         PEvent.closeReadEnd, PEvent.closeWriteEnd,
         PEvent.waitLeft, PEvent.waitRight] ∧
      (execute_pipe args k).left =
        [CEvent.closeReadEnd, CEvent.dupWriteToStdout, CEvent.closeWriteEnd,
         CEvent.execCall (args.take k).head? (args.take k)] ∧
      (execute_pipe args k).right =
        [CEvent.closeWriteEnd, CEvent.dupReadToStdin, CEvent.closeReadEnd,
         CEvent.execCall (args.drop (k + 1)).head? (args.drop (k + 1))] := by
  obtain ⟨hlt, hnmem, hsplit⟩ := find_pipe_idx_spec args k h
  exact ⟨rfl, rfl, hsplit, rfl, rfl, rfl⟩

/-- Witness for c7_pipe_orchestration on the line "echo hi | wc -w". -/
theorem c7_pipe_orchestration_witness :
    (execute_pipe ["echo", "hi", "|", "wc", "-w"] 2).lhs =
        ["echo", "hi", "|", "wc", "-w"].take 2 ∧
      (execute_pipe ["echo", "hi", "|", "wc", "-w"] 2).rhs =
        ["echo", "hi", "|", "wc", "-w"].drop 3 ∧
      (execute_pipe ["echo", "hi", "|", "wc", "-w"] 2).lhs ++ "|" ::
          (execute_pipe ["echo", "hi", "|", "wc", "-w"] 2).rhs =
        ["echo", "hi", "|", "wc", "-w"] ∧
      (execute_pipe ["echo", "hi", "|", "wc", "-w"] 2).parent =
        [PEvent.createPipe, PEvent.spawnLeft, PEvent.spawnRight,
         PEvent.closeReadEnd, PEvent.closeWriteEnd,
         PEvent.waitLeft, PEvent.waitRight] ∧
      (execute_pipe ["echo", "hi", "|", "wc", "-w"] 2).left =
        [CEvent.closeReadEnd, CEvent.dupWriteToStdout, CEvent.closeWriteEnd,
         CEvent.execCall (["echo", "hi", "|", "wc", "-w"].take 2).head?
           (["echo", "hi", "|", "wc", "-w"].take 2)] ∧
      (execute_pipe ["echo", "hi", "|", "wc", "-w"] 2).right =
        [CEvent.closeWriteEnd, CEvent.dupReadToStdin, CEvent.closeReadEnd,
         CEvent.execCall (["echo", "hi", "|", "wc", "-w"].drop 3).head?
           (["echo", "hi", "|", "wc", "-w"].drop 3)] :=
  c7_pipe_orchestration ["echo", "hi", "|", "wc", "-w"] 2 (by decide)

/-- C10: the piped path validates nothing about the pipe's operands: when
the pipe token is first (index 0) the left sub-vector is empty (its slot
0 is the NULL sentinel, modelled as the empty list with head? = none),
and when it is last the right sub-vector is empty; in both cases the
child still reaches execvp with a null command name, and execute_cmd
delegates to the piped path with no syntax diagnostic of any kind. -/
theorem c10_pipe_operand_unvalidated (ro wo : String → Bool)
    (args : List String) (k : Nat) (h : find_pipe_idx args = some k) :
    execute_cmd ro wo args = { trace := [Event.callPipe k], dispatched := none } ∧
      (k = 0 → (execute_pipe args k).lhs = [] ∧
        CEvent.execCall none [] ∈ (execute_pipe args k).left) ∧
      (k = args.length - 1 → (execute_pipe args k).rhs = [] ∧
        CEvent.execCall none [] ∈ (execute_pipe args k).right) := by
  obtain ⟨hlt, _, _⟩ := find_pipe_idx_spec args k h
  have hne : args ≠ [] := by
    intro hc
    subst hc
    simp at hlt
  refine ⟨execute_cmd_eq_pipe ro wo args k hne h, ?_, ?_⟩
  · intro hk
    subst hk
    have hlhs : (execute_pipe args 0).lhs = [] := by simp [execute_pipe]
    refine ⟨hlhs, ?_⟩
    have : (execute_pipe args 0).left =
        [CEvent.closeReadEnd, CEvent.dupWriteToStdout, CEvent.closeWriteEnd,
         CEvent.execCall ([] : List String).head? []] := by
      simp [execute_pipe]
    rw [this]
    simp
  · intro hk
    have hdrop : args.drop (k + 1) = [] := by
      have : k + 1 = args.length := by omega
      rw [this]
      exact List.drop_length args
    have hrhs : (execute_pipe args k).rhs = [] := hdrop
    refine ⟨hrhs, ?_⟩
    have : (execute_pipe args k).right =
        [CEvent.closeWriteEnd, CEvent.dupReadToStdin, CEvent.closeReadEnd,
         CEvent.execCall ([] : List String).head? []] := by
      simp [execute_pipe, hdrop]
    rw [this]
    simp

/-- Witness for c10_pipe_operand_unvalidated on the line consisting only
of the pipe token, where the pipe is both first and last. -/
theorem c10_pipe_operand_unvalidated_witness :
    execute_cmd (fun _ => true) (fun _ => true) ["|"] =
        { trace := [Event.callPipe 0], dispatched := none } ∧
      (0 = 0 → (execute_pipe ["|"] 0).lhs = [] ∧
        CEvent.execCall none [] ∈ (execute_pipe ["|"] 0).left) ∧
      (0 = ["|"].length - 1 → (execute_pipe ["|"] 0).rhs = [] ∧
        CEvent.execCall none [] ∈ (execute_pipe ["|"] 0).right) :=
  c10_pipe_operand_unvalidated (fun _ => true) (fun _ => true) ["|"] 0 (by decide)

/-- C6: on a pipe-free line, extraction removes exactly the first
redirection symbol and its operand, shifting all later elements left by
two (the compacted vector is the prefix followed by everything after the
operand) and decrementing the element count by two (the re-termination
with the null sentinel at the new count is the list model's length);
only the first occurrence of each symbol is honored (a later "<" or ">"
in post survives into the dispatched vector); input redirection is
resolved strictly before output redirection (the openInput event precedes
the openOutput event in the trace), and the output scan operates on the
vector as already compacted by the input scan. -/
theorem c6_compaction_order (ro wo : String → Bool)
    (pre mid post : List String) (fIn fOut : String)
    (hpreIn : "<" ∉ pre) (hpreOut : ">" ∉ pre) (hmidOut : ">" ∉ mid)
    (hfIn : bad_first_char fIn = false) (hfOut : bad_first_char fOut = false)
    (hro : ro fIn = true) (hwo : wo fOut = true)
    (hpipe : "|" ∉ pre ++ "<" :: fIn :: (mid ++ ">" :: fOut :: post)) :
    redirect_input (pre ++ "<" :: fIn :: (mid ++ ">" :: fOut :: post)) =
        ScanResult.found fIn (pre ++ (mid ++ ">" :: fOut :: post)) ∧
      (pre ++ (mid ++ ">" :: fOut :: post)).length =
        (pre ++ "<" :: fIn :: (mid ++ ">" :: fOut :: post)).length - 2 ∧
      redirect_output (pre ++ (mid ++ ">" :: fOut :: post)) =
        ScanResult.found fOut ((pre ++ mid) ++ post) ∧
      ((pre ++ mid) ++ post).length = (pre ++ (mid ++ ">" :: fOut :: post)).length - 2 ∧
      (∃ tail,
        (execute_cmd ro wo (pre ++ "<" :: fIn :: (mid ++ ">" :: fOut :: post))).trace =
          Event.openInput fIn true :: Event.openOutput fOut true :: tail) ∧
      (execute_cmd ro wo (pre ++ "<" :: fIn :: (mid ++ ">" :: fOut :: post))).dispatched =
        some ((pre ++ mid) ++ post) := by
  have h1 := scan_first_good "<" pre fIn (mid ++ ">" :: fOut :: post) hpreIn hfIn
  have hmemOut : ">" ∉ pre ++ mid := by
    intro hc
    rcases List.mem_append.mp hc with hc | hc
    · exact hpreOut hc
    · exact hmidOut hc
  have h3 : redirect_output (pre ++ (mid ++ ">" :: fOut :: post)) =
      ScanResult.found fOut ((pre ++ mid) ++ post) := by
    have := scan_first_good ">" (pre ++ mid) fOut post hmemOut hfOut
    simpa [List.append_assoc] using this
  have hne : pre ++ "<" :: fIn :: (mid ++ ">" :: fOut :: post) ≠ [] := by simp
  have hp := find_pipe_idx_eq_none _ hpipe
  have hcmd := execute_cmd_eq_found ro wo
    (pre ++ "<" :: fIn :: (mid ++ ">" :: fOut :: post))
    (pre ++ (mid ++ ">" :: fOut :: post)) fIn hne hp h1 hro
  have hout := output_phase_eq_found wo (pre ++ (mid ++ ">" :: fOut :: post))
    ((pre ++ mid) ++ post) fOut h3
  rw [if_pos hwo] at hout
  refine ⟨h1, by simp; omega, h3, by simp; omega, ?_, ?_⟩
  · refine ⟨(dispatch_cmd ((pre ++ mid) ++ post)).1, ?_⟩
    rw [hcmd]
    simp [hout]
  · rw [hcmd]
    simp [hout, dispatch_cmd_snd]

/-- Witness for c6_compaction_order on the line
"ls < in.txt > out.txt <" (the trailing "<" survives: only the first
occurrence of each symbol is honored). -/
theorem c6_compaction_order_witness :
    redirect_input (["ls"] ++ "<" :: "in.txt" :: ([] ++ ">" :: "out.txt" :: ["<"])) =
        ScanResult.found "in.txt" (["ls"] ++ ([] ++ ">" :: "out.txt" :: ["<"])) ∧
      (["ls"] ++ ([] ++ ">" :: "out.txt" :: ["<"])).length =
        (["ls"] ++ "<" :: "in.txt" :: ([] ++ ">" :: "out.txt" :: ["<"])).length - 2 ∧
      redirect_output (["ls"] ++ ([] ++ ">" :: "out.txt" :: ["<"])) =
        ScanResult.found "out.txt" ((["ls"] ++ []) ++ ["<"]) ∧
      ((["ls"] ++ []) ++ ["<"]).length =
        (["ls"] ++ ([] ++ ">" :: "out.txt" :: ["<"])).length - 2 ∧
      (∃ tail,
        (execute_cmd (fun _ => true) (fun _ => true)
            (["ls"] ++ "<" :: "in.txt" :: ([] ++ ">" :: "out.txt" :: ["<"]))).trace =
          Event.openInput "in.txt" true :: Event.openOutput "out.txt" true :: tail) ∧
      (execute_cmd (fun _ => true) (fun _ => true)
          (["ls"] ++ "<" :: "in.txt" :: ([] ++ ">" :: "out.txt" :: ["<"]))).dispatched =
        some ((["ls"] ++ []) ++ ["<"]) :=
  c6_compaction_order (fun _ => true) (fun _ => true) ["ls"] [] ["<"]
    "in.txt" "out.txt" (by decide) (by decide) (by decide) (by decide)
    (by decide) (by decide) (by decide) (by decide)

/-- C8: the tokenizer splits the raw line on runs of space and newline
characters; an empty or all-whitespace line yields the empty vector; and
a line containing none of the metacharacter characters <, > and |
reaches the dispatch point of execute_cmd with its whitespace-split token
sequence verbatim — no pipe delegation and no redirection extraction
touches it. -/
theorem c8_tokenizer_verbatim :
    (∀ s : String, (∀ c ∈ s.data, is_delim c = true) → parse_tokens s = []) ∧
      (∀ (ro wo : String → Bool) (s : String),
        (∀ c ∈ s.data, c ≠ '<' ∧ c ≠ '>' ∧ c ≠ '|') →
        parse_tokens s ≠ [] →
        (execute_cmd ro wo (parse_tokens s)).dispatched = some (parse_tokens s)) := by
  constructor
  · intro s hs
    exact tokenize_all_delim s.data hs
  · intro ro wo s hchar hne
    have hlt : "<" ∉ parse_tokens s := by
      intro hmem
      exact (hchar '<' (token_mem_char s "<" '<' hmem (by decide))).1 rfl
    have hgt : ">" ∉ parse_tokens s := by
      intro hmem
      exact (hchar '>' (token_mem_char s ">" '>' hmem (by decide))).2.1 rfl
    have hpipe : "|" ∉ parse_tokens s := by
      intro hmem
      exact (hchar '|' (token_mem_char s "|" '|' hmem (by decide))).2.2 rfl
    have hp := find_pipe_idx_eq_none _ hpipe
    have hin := scan_not_mem "<" _ hlt
    have hout := scan_not_mem ">" _ hgt
    rw [execute_cmd_eq_notFound ro wo (parse_tokens s) hne hp hin]
    have := output_phase_eq_notFound wo (parse_tokens s) hout
    simp [this, dispatch_cmd_snd]

/-- Witness for c8_tokenizer_verbatim: an all-whitespace line tokenizes
to nothing, and the metacharacter-free line "echo hi" reaches dispatch
verbatim. -/
theorem c8_tokenizer_verbatim_witness :
    parse_tokens " \n " = [] ∧
      (execute_cmd (fun _ => true) (fun _ => true) (parse_tokens "echo hi")).dispatched =
        some (parse_tokens "echo hi") :=
  ⟨c8_tokenizer_verbatim.1 " \n " (by decide),
   c8_tokenizer_verbatim.2 (fun _ => true) (fun _ => true) "echo hi"
     (by decide) (by decide)⟩

end Shell
